import Mathlib

/-!
Verification of the XML test-library (robot/libraries/XML.py): a shallow
embedding of its data model and operations, followed by theorems checking
the natural-language specification against the code.

Modelling conventions:
* A parsed XML element (`xml.etree` element) is the inductive `Element`.
* Python exceptions are the `Except String` monad: a raised error is
  `Except.error msg` and normal completion is `Except.ok`.
* The mutable occurrence-counter dictionary of `Location` is passed as
  explicit state: `Location.child` returns the new child location together
  with the updated parent location.
* External collaborators (ET.parse, Element.findall, ET.tostring, and the
  BuiltIn assertion primitives) are black boxes; they are either function
  parameters or, for the assertion primitives, modelled from the spec.
-/

namespace RobotXML

/-- An XML tree node as exposed by the ElementTree API used in XML.py:
a tag, an ordered attribute mapping (dict), optional text before the first
child, the ordered list of children, and optional tail text after the
element's closing tag. -/
inductive Element where
  | mk (tag : String) (attrib : List (String × String)) (text : Option String)
       (children : List Element) (tail : Option String)

def Element.tag : Element → String
  | .mk t _ _ _ _ => t

def Element.attrib : Element → List (String × String)
  | .mk _ a _ _ _ => a

def Element.text : Element → Option String
  | .mk _ _ tx _ _ => tx

def Element.children : Element → List Element
  | .mk _ _ _ cs _ => cs

def Element.tail : Element → Option String
  | .mk _ _ _ _ tl => tl

/-- Association lookup in an attribute dict (`attrib[key]` / `attrib.get(key)`). -/
def lookupAttr : List (String × String) → String → Option String
  | [], _ => none
  | (k, v) :: rest, name => if k = name then some v else lookupAttr rest name

/-- Lookup in the `Location._children` occurrence-counter dict. -/
def lookupCount : List (String × Nat) → String → Option Nat
  | [], _ => none
  | (k, n) :: rest, t => if k = t then some n else lookupCount rest t

/-- Store into the `Location._children` occurrence-counter dict
(`self._children[tag] = n`). -/
def setCount : List (String × Nat) → String → Nat → List (String × Nat)
  | [], t, n => [(t, n)]
  | (k, m) :: rest, t, n =>
      if k = t then (t, n) :: rest else (k, m) :: setCount rest t n

/-- The `Location` breadcrumb of XML.py: a slash-joined path plus the
per-instance dict counting how many times each child tag was requested. -/
structure Location where
  path : String
  children : List (String × Nat)

/-- `Location.child(tag)`: the first request of a tag records count 1 and
uses the bare tag; later requests increment the count and append a 1-based
bracket index.  The Python method mutates `self._children`; here the
updated parent is returned as the second component. -/
def Location.child (loc : Location) (tag : String) : Location × Location :=
  match lookupCount loc.children tag with
  | none =>
      (⟨loc.path ++ "/" ++ tag, []⟩, ⟨loc.path, setCount loc.children tag 1⟩)
  | some n =>
      (⟨loc.path ++ "/" ++ tag ++ "[" ++ toString (n + 1) ++ "]", []⟩,
       ⟨loc.path, setCount loc.children tag (n + 1)⟩)

/-- The parent state after `n` successive `child t` calls on one Location. -/
def Location.afterChildCalls (L : Location) (t : String) : Nat → Location
  | 0 => L
  | n + 1 => ((L.afterChildCalls t n).child t).2

/-- The whitespace class of the `\s` regex and of `str.strip()` on ASCII. -/
def isPySpace (c : Char) : Bool :=
  c = ' ' || c = '\t' || c = '\n' || c = '\r' || c = '\x0b' || c = '\x0c'

/-- `text.strip()`: drop leading and trailing whitespace characters. -/
def stripChars (cs : List Char) : List Char :=
  ((cs.dropWhile isPySpace).reverse.dropWhile isPySpace).reverse

/-- `re.sub('\s+', ' ', -)` on a character list: each maximal whitespace run
is replaced by a single space.  The flag records whether the previous
character belonged to a whitespace run already rewritten. -/
def collapseSpaces : Bool → List Char → List Char
  | _, [] => []
  | prevWs, c :: rest =>
      if isPySpace c then
        if prevWs then collapseSpaces true rest
        else ' ' :: collapseSpaces true rest
      else c :: collapseSpaces false rest

/-- `XML._normalize_whitespace`: `self._whitespace.sub(' ', text.strip())`. -/
def normalize_whitespace (s : String) : String :=
  String.mk (collapseSpaces false (stripChars s.data))

/-- Modelled from the spec: `BuiltIn.should_be_equal` (an external assertion
primitive, not part of this source file) is the strict equality check that
raises a failure carrying the given message when the two values differ. -/
def shouldBeEqual {α : Type} [DecidableEq α] (a b : α) (msg : String) :
    Except String Unit :=
  if a = b then Except.ok () else Except.error msg

/-- The type of the pluggable comparison primitive (`should_be_equal` or
`should_match`) injected into `ElementComparator`. -/
abbrev Cmp := String → String → String → Except String Unit

/-- The strict-equality primitive at type `String`, as passed by
`elements_should_be_equal`. -/
def seCmp : Cmp := fun a b msg => shouldBeEqual a b msg

/-- `ElementComparator.__init__`: the injected comparator and the optional
whitespace normalizer. -/
structure ElementComparator where
  comparator : Cmp
  normalizer : Option (String → String)

/-- `ElementComparator._compare`'s message decoration: append ` at '<loc>'`
when a location is present. -/
def locMessage (message : String) : Option Location → String
  | none => message
  | some loc => message ++ " at '" ++ loc.path ++ "'"

/-- `ElementComparator._text`: a falsy (missing or empty) text is the empty
string; otherwise the normalizer is applied when configured. -/
def ElementComparator.textOf (ec : ElementComparator) : Option String → String
  | none => ""
  | some t =>
      if t = "" then ""
      else match ec.normalizer with
        | none => t
        | some f => f t

/-- `ElementComparator._compare_tags`: always uses `should_be_equal`. -/
def ElementComparator.compare_tags (_ec : ElementComparator)
    (actual expected : Element) (location : Option Location) :
    Except String Unit :=
  shouldBeEqual actual.tag expected.tag (locMessage "Different tag name" location)

/-- `sorted(dict)` over the attribute dict: the attribute names in
ascending string order. -/
def sortedKeys (attrib : List (String × String)) : List String :=
  (attrib.map Prod.fst).mergeSort (· ≤ ·)

/-- The per-key value loop of `ElementComparator._compare_attributes`,
iterating the actual element's attribute names in dict order; a key absent
from the expected dict would be a Python `KeyError` (unreachable after the
name-set check passes). -/
def ElementComparator.compare_attr_values (ec : ElementComparator)
    (actual expected : Element) (location : Option Location) :
    List String → Except String Unit
  | [] => Except.ok ()
  | k :: rest =>
      (match lookupAttr expected.attrib k with
       | none => Except.error ("KeyError: " ++ k)
       | some ev =>
           ec.comparator ((lookupAttr actual.attrib k).getD "") ev
             (locMessage ("Different value for attribute '" ++ k ++ "'") location))
      >>= fun _ => ec.compare_attr_values actual expected location rest

/-- `ElementComparator._compare_attributes`: sorted attribute names first
(with `should_be_equal`), then each value with the injected comparator. -/
def ElementComparator.compare_attributes (ec : ElementComparator)
    (actual expected : Element) (location : Option Location) :
    Except String Unit :=
  shouldBeEqual (sortedKeys actual.attrib) (sortedKeys expected.attrib)
      (locMessage "Different attribute names" location) >>= fun _ =>
  ec.compare_attr_values actual expected location (actual.attrib.map Prod.fst)

/-- `ElementComparator._compare_texts`: the injected comparator on the
(possibly normalized) text of both elements. -/
def ElementComparator.compare_texts (ec : ElementComparator)
    (actual expected : Element) (location : Option Location) :
    Except String Unit :=
  ec.comparator (ec.textOf actual.text) (ec.textOf expected.text)
    (locMessage "Different text" location)

/-- `ElementComparator._compare_tails`: the injected comparator on the
(possibly normalized) tail of both elements. -/
def ElementComparator.compare_tails (ec : ElementComparator)
    (actual expected : Element) (location : Option Location) :
    Except String Unit :=
  ec.comparator (ec.textOf actual.tail) (ec.textOf expected.tail)
    (locMessage "Different tail text" location)

mutual
/-- `ElementComparator.compare`: tags, attributes, text, tail, then child
count and the recursion into child pairs (`_compare_children` inlined so
that the recursion is structural); the first failing check aborts via the
`Except` monad. -/
def ElementComparator.compare (ec : ElementComparator) :
    Element → Element → Option Location → Except String Unit
  | actual@(.mk t _ _ cs _), expected, location =>
      ec.compare_tags actual expected location >>= fun _ =>
      ec.compare_attributes actual expected location >>= fun _ =>
      ec.compare_texts actual expected location >>= fun _ =>
      ec.compare_tails actual expected location >>= fun _ =>
      shouldBeEqual cs.length expected.children.length
          (locMessage "Different number of child elements" location) >>= fun _ =>
      ec.compare_child_list cs expected.children
        (match location with | none => ⟨t, []⟩ | some l => l)

/-- The `zip`-driven loop of `_compare_children`: each actual/expected child
pair is compared at `location.child(act.tag)`, threading the parent
location's updated occurrence counter to the next iteration. -/
def ElementComparator.compare_child_list (ec : ElementComparator) :
    List Element → List Element → Location → Except String Unit
  | [], _, _ => Except.ok ()
  | _ :: _, [], _ => Except.ok ()
  | a :: as, e :: es, loc =>
      let c := loc.child a.tag
      ec.compare a e (some c.1) >>= fun _ =>
      ec.compare_child_list as es c.2
end

/-- `ElementComparator._compare_children` as a standalone definition:
child-count check followed by the pairwise recursion. -/
def ElementComparator.compare_children (ec : ElementComparator)
    (actual expected : Element) (location : Option Location) :
    Except String Unit :=
  shouldBeEqual actual.children.length expected.children.length
      (locMessage "Different number of child elements" location) >>= fun _ =>
  ec.compare_child_list actual.children expected.children
    (match location with | none => ⟨actual.tag, []⟩ | some l => l)

/-- `''.join(...)` on a list of strings. -/
def joinStrings : List String → String
  | [] => ""
  | s :: rest => s ++ joinStrings rest

/-- A falsy-guarded yield (`if element.text: yield element.text`): missing
or empty strings contribute nothing. -/
def truthyText : Option String → List String
  | none => []
  | some t => if t = "" then [] else [t]

mutual
/-- `XML._yield_texts(element, top)`: the element's own text, every child's
texts recursively, and the element's tail only when it is not the
top-level call target. -/
def yield_texts (top : Bool) : Element → List String
  | .mk _ _ tx cs tl =>
      truthyText tx ++ yield_texts_list cs ++
      (if top then [] else truthyText tl)

/-- The `for child in element` loop inside `_yield_texts`. -/
def yield_texts_list : List Element → List String
  | [] => []
  | c :: cs => yield_texts false c ++ yield_texts_list cs
end

mutual
/-- Modelled from the spec (for refinement comparison only, not from the
source): the extracted text of an element is the concatenation, in document
order, of its own leading text and, for each child recursively, that
child's extracted text followed by that child's own tail; the element's own
tail is never included; `None` text/tail count as empty. -/
def specExtractedText : Element → String
  | .mk _ _ tx cs _ => tx.getD "" ++ specExtractedChildren cs

/-- Modelled from the spec: the children part of `specExtractedText`. -/
def specExtractedChildren : List Element → String
  | [] => ""
  | c :: cs => (specExtractedText c ++ c.tail.getD "") ++ specExtractedChildren cs
end

/-- A "source" argument: either a raw document reference (string, handled by
parsing) or an already-parsed element. -/
inductive Source where
  | str (s : String)
  | elem (e : Element)

/-- The external collaborators of the library: `ET.parse(...).getroot()` on
a well-formed source, and `Element.findall` (the XPath engine).  Both are
black boxes consumed by the code under verification. -/
structure Env where
  parse : String → Element
  findall : Element → String → List Element

/-- `XML._get_parent`: parse a string source, pass a parsed element through. -/
def get_parent (env : Env) : Source → Element
  | .str s => env.parse s
  | .elem e => e

/-- `XML._get_xpath` on Python >= 2.7: the query string is forwarded
unchanged (the pre-2.7 branch also returns the query, after an encoding
attempt and possibly a logged warning, neither of which is modelled). -/
def get_xpath (xpath : String) : String := xpath

/-- `XML.get_elements`: forward to the engine's `findall`; a total function
that simply returns the engine's (possibly empty) match list. -/
def get_elements (env : Env) (source : Source) (xpath : String) : List Element :=
  env.findall (get_parent env source) (get_xpath xpath)

/-- `XML.get_element`: `'.'` is handled by the compatibility shim returning
the source element itself; otherwise zero matches raise the no-match error
and several matches raise the multiple-match error. -/
def get_element (env : Env) (source : Source) (xpath : String) :
    Except String Element :=
  if xpath = "." then Except.ok (get_parent env source)
  else
    let elements := get_elements env source xpath
    if elements.length = 0 then
      Except.error ("No element matching '" ++ xpath ++ "' found.")
    else if elements.length > 1 then
      Except.error ("Multiple elements (" ++ toString elements.length ++
        ") matching '" ++ xpath ++ "' found.")
    else Except.ok (elements.headD (.mk "" [] none [] none))
        -- `elements[0]`; the `headD` default is unreachable (length is 1 here)

/-- `XML.get_element_text`: join the yielded texts of the selected element,
then optionally normalize whitespace. -/
def get_element_text (env : Env) (source : Source) (xpath : String)
    (normalizeWs : Bool) : Except String String :=
  (get_element env source xpath).map fun element =>
    let text := joinStrings (yield_texts true element)
    if normalizeWs then normalize_whitespace text else text

/-- `XML.get_element_attribute`: `element.get(name, default)` on the
selected element. -/
def get_element_attribute (env : Env) (source : Source) (name : String)
    (xpath : String) (default : Option String) : Except String (Option String) :=
  (get_element env source xpath).map fun element =>
    match lookupAttr element.attrib name with
    | some v => some v
    | none => default

/-- `XML.element_attribute_should_be`: fetch the attribute (default `None`)
and hand it, missing or not, to the equality assertion. -/
def element_attribute_should_be (env : Env) (source : Source) (name : String)
    (expected : Option String) (xpath : String) (message : Option String) :
    Except String Unit :=
  get_element_attribute env source name xpath none >>= fun attr =>
  shouldBeEqual attr expected (message.getD "")

/-- `XML.element_attribute_should_match`: fetch the attribute (default
`None`), fail when it does not exist, otherwise run the pattern check
(`should_match` is external, passed as `matchCmp`). -/
def element_attribute_should_match (env : Env) (matchCmp : Cmp)
    (source : Source) (name : String) (pattern : String) (xpath : String)
    (message : Option String) : Except String Unit :=
  get_element_attribute env source name xpath none >>= fun attr =>
  match attr with
  | none => Except.error ("Attribute '" ++ name ++ "' does not exist.")
  | some v => matchCmp v pattern (message.getD "")

/-- `XML._compare_elements`: build the comparator with the requested
normalizer and compare the two selected elements with no location. -/
def compare_elements (env : Env) (comparator : Cmp) (source expected : Source)
    (normalizeWs : Bool) : Except String Unit :=
  get_element env source "." >>= fun a =>
  get_element env expected "." >>= fun e =>
  ElementComparator.compare
    ⟨comparator, if normalizeWs then some normalize_whitespace else none⟩ a e none

/-- `XML.elements_should_be_equal`: comparison with the strict-equality
primitive. -/
def elements_should_be_equal (env : Env) (source expected : Source)
    (normalizeWs : Bool) : Except String Unit :=
  compare_elements env seCmp source expected normalizeWs

/-- Split a character list at its first newline, when one exists. -/
def splitFirstLine : List Char → Option (List Char × List Char)
  | [] => none
  | c :: rest =>
      if c = '\n' then some ([], rest)
      else match splitFirstLine rest with
        | none => none
        | some (l, r) => some (c :: l, r)

/-- Whether a (newline-free) first line is matched by the anchored
declaration regex `^<\?xml .*\?>\n` up to its newline: it must start with
`<?xml ` and end with `?>`. -/
def isXmlDeclLine (line : List Char) : Bool :=
  "<?xml ".data.isPrefixOf line && "?>".data.isSuffixOf line

/-- `XML._xml_declaration.sub('', string)`: the regex is anchored at the
start and `.` does not cross newlines, so it removes the first line and its
newline exactly when that line is an XML declaration. -/
def xml_declaration_sub (s : String) : String :=
  match splitFirstLine s.data with
  | none => s
  | some (line, rest) => if isXmlDeclLine line then String.mk rest else s

/-- `XML.element_to_string`: serialize the selected element through the
external `ET.tostring` (UTF-8; passed as the `tostring` black box) and
strip a leading XML declaration. -/
def element_to_string (tostring : Element → String) (env : Env)
    (source : Source) : Except String String :=
  (get_element env source ".").map fun element =>
    xml_declaration_sub (tostring element)

/-! ## Lemmas about the Location occurrence counter -/

theorem lookupCount_setCount_self (l : List (String × Nat)) (t : String) (n : Nat) :
    lookupCount (setCount l t n) t = some n := by
  induction l with
  | nil => simp [setCount, lookupCount]
  | cons p rest ih =>
      obtain ⟨k, m⟩ := p
      by_cases hk : k = t
      · subst hk; simp [setCount, lookupCount]
      · simp [setCount, lookupCount, hk, ih]

theorem afterChildCalls_path (L : Location) (t : String) (n : Nat) :
    (L.afterChildCalls t n).path = L.path := by
  induction n with
  | zero => rfl
  | succ n ih =>
      have hs : L.afterChildCalls t (n + 1) = ((L.afterChildCalls t n).child t).2 := rfl
      rw [hs]
      rcases hl : lookupCount (L.afterChildCalls t n).children t with _ | m <;>
        simp [Location.child, hl, ih]

theorem afterChildCalls_count (L : Location) (t : String)
    (h : lookupCount L.children t = none) :
    ∀ n, 1 ≤ n → lookupCount (L.afterChildCalls t n).children t = some n := by
  intro n
  induction n with
  | zero => intro h1; exact absurd h1 (by omega)
  | succ n ih =>
      intro _
      by_cases hn : n = 0
      · subst hn
        simp [Location.afterChildCalls, Location.child, h, lookupCount_setCount_self]
      · have hc := ih (by omega)
        have hs : L.afterChildCalls t (n + 1) = ((L.afterChildCalls t n).child t).2 := rfl
        rw [hs]
        simp [Location.child, hc, lookupCount_setCount_self]

/-- C2: on a Location whose counter does not yet know the tag `t`, the
first `child t` call yields path `p/t` with no bracket index, the nth call
(n ≥ 2) yields path `p/t[n]`; the counter lives on the parent Location
(whose path is unchanged and whose counter records each call), while every
returned child Location starts with a fresh, empty counter of its own. -/
theorem c2_location_child_occurrence (L : Location) (t : String)
    (h : lookupCount L.children t = none) :
    (L.child t).1.path = L.path ++ "/" ++ t
  ∧ (L.child t).1.children = []
  ∧ (L.child t).2.path = L.path
  ∧ (∀ n, 2 ≤ n →
      ((L.afterChildCalls t (n - 1)).child t).1.path
          = L.path ++ "/" ++ t ++ "[" ++ toString n ++ "]"
      ∧ ((L.afterChildCalls t (n - 1)).child t).1.children = [])
  ∧ (∀ n, 1 ≤ n → lookupCount (L.afterChildCalls t n).children t = some n) := by
  refine ⟨by simp [Location.child, h], by simp [Location.child, h],
          by simp [Location.child, h], ?_, afterChildCalls_count L t h⟩
  intro n hn
  have hc : lookupCount (L.afterChildCalls t (n - 1)).children t = some (n - 1) :=
    afterChildCalls_count L t h (n - 1) (by omega)
  have hp : (L.afterChildCalls t (n - 1)).path = L.path := afterChildCalls_path L t (n - 1)
  have hn1 : n - 1 + 1 = n := by omega
  constructor
  · simp [Location.child, hc, hp, hn1]
  · simp [Location.child, hc]

/-- Witness for C2 at a concrete Location: from `Location("a")`, the first
`child "b"` gives path `a/b` and the second gives `a/b[2]`. -/
theorem c2_location_child_occurrence_witness :
    ((Location.mk "a" []).child "b").1.path = "a/b"
  ∧ (((Location.mk "a" []).afterChildCalls "b" (2 - 1)).child "b").1.path = "a/b[2]" :=
  ⟨(c2_location_child_occurrence ⟨"a", []⟩ "b" rfl).1,
   ((c2_location_child_occurrence ⟨"a", []⟩ "b" rfl).2.2.2.1 2 (by omega)).1⟩

/-! ## get_element / get_elements cardinality -/

theorem noMatchMsg_ne_multiMsg (n : Nat) (xp : String) :
    ("No element matching '" ++ xp ++ "' found.")
      ≠ ("Multiple elements (" ++ toString n ++ ") matching '" ++ xp ++ "' found.") := by
  intro h
  have hl := congrArg String.length h
  have e1 : ("No element matching '").length = 21 := rfl
  have e2 : ("' found.").length = 8 := rfl
  have e3 : ("Multiple elements (").length = 19 := rfl
  have e4 : (") matching '").length = 12 := rfl
  simp only [String.length_append, e1, e2, e3, e4] at hl
  omega

/-- C4: away from the `'.'` shim, the single-element query fails with the
no-match message exactly when the engine returns zero elements and with the
multiple-match message exactly when it returns more than one, returning the
unique match otherwise; the plural query is the engine's (possibly empty)
match list itself, so it never fails on cardinality. -/
theorem c4_get_element_cardinality (env : Env) (source : Source) (xpath : String)
    (h : xpath ≠ ".") :
    (get_element env source xpath
        = Except.error ("No element matching '" ++ xpath ++ "' found.")
      ↔ get_elements env source xpath = [])
  ∧ ((∃ n : Nat, get_element env source xpath
        = Except.error ("Multiple elements (" ++ toString n ++ ") matching '"
            ++ xpath ++ "' found."))
      ↔ 1 < (get_elements env source xpath).length)
  ∧ (∀ e, get_elements env source xpath = [e]
      → get_element env source xpath = Except.ok e)
  ∧ get_elements env source xpath = env.findall (get_parent env source) xpath := by
  rcases hl : get_elements env source xpath with _ | ⟨a, _ | ⟨b, rest⟩⟩
  · have hge : get_element env source xpath
        = Except.error ("No element matching '" ++ xpath ++ "' found.") := by
      simp [get_element, h, hl]
    refine ⟨by simp [hge], ?_, by simp, hl.symm⟩
    constructor
    · rintro ⟨n, hn⟩
      rw [hge] at hn
      exact absurd (Except.error.inj hn) (noMatchMsg_ne_multiMsg n xpath)
    · intro hlt; simp at hlt
  · have hge : get_element env source xpath = Except.ok a := by
      simp [get_element, h, hl]
    refine ⟨by simp [hge], by simp [hge], ?_, hl.symm⟩
    intro e he
    obtain rfl : a = e := by simpa using he
    exact hge
  · have hge : get_element env source xpath
        = Except.error ("Multiple elements (" ++ toString (rest.length + 1 + 1)
            ++ ") matching '" ++ xpath ++ "' found.") := by
      simp [get_element, h, hl]
    refine ⟨?_, ?_, by intro e he; simp at he, hl.symm⟩
    · rw [hge]
      constructor
      · intro hn
        exact absurd (Except.error.inj hn).symm
          (noMatchMsg_ne_multiMsg (rest.length + 1 + 1) xpath)
      · intro hfalse; simp at hfalse
    · constructor
      · intro _; simp
      · intro _; exact ⟨rest.length + 1 + 1, hge⟩

/-- Witness for C4: with an engine that matches nothing, a non-`'.'` query
raises the no-match error. -/
theorem c4_get_element_cardinality_witness :
    get_element ⟨fun _ => .mk "r" [] none [] none, fun _ _ => []⟩
        (.elem (.mk "r" [] none [] none)) "x"
      = Except.error ("No element matching '" ++ "x" ++ "' found.") :=
  (c4_get_element_cardinality ⟨fun _ => .mk "r" [] none [] none, fun _ _ => []⟩
      (.elem (.mk "r" [] none [] none)) "x" (by decide)).1.mpr rfl

/-- C5: `get_element` with the query `'.'` returns the source element
itself through the compatibility shim — the parsed root for a raw string
source, the element itself for an already-parsed source — and never
reaches the cardinality errors. -/
theorem c5_get_element_dot (env : Env) (source : Source) :
    get_element env source "." = Except.ok (get_parent env source)
  ∧ (∀ s, get_element env (.str s) "." = Except.ok (env.parse s))
  ∧ (∀ e, get_element env (.elem e) "." = Except.ok e) :=
  ⟨rfl, fun _ => rfl, fun _ => rfl⟩

/-! ## Whitespace normalization and attribute comparison -/

theorem error_bind {α β : Type} (msg : String) (f : α → Except String β) :
    (Except.error msg >>= f) = Except.error msg := rfl

theorem ok_bind {α β : Type} (x : α) (f : α → Except String β) :
    (Except.ok x >>= f) = f x := rfl

/-- The value actually handed to the comparator for a text/tail field when
whitespace normalization is on. -/
def normalizedValue (t : Option String) : String :=
  match t with
  | none => ""
  | some s => if s = "" then "" else normalize_whitespace s

theorem compare_attr_values_normalizer_free (cmp : Cmp)
    (n₁ n₂ : Option (String → String)) (a e : Element) (loc : Option Location) :
    ∀ ks, ElementComparator.compare_attr_values ⟨cmp, n₁⟩ a e loc ks
        = ElementComparator.compare_attr_values ⟨cmp, n₂⟩ a e loc ks := by
  intro ks
  induction ks with
  | nil => rfl
  | cons k rest ih =>
      simp only [ElementComparator.compare_attr_values, ih]

/-- C6: whitespace normalization collapses every maximal whitespace run to
one space and trims the ends (`"  a \n b  "` becomes `"a b"`); when
requested it is applied to both the actual and the expected text and tail
before the injected comparator sees them, and neither the tag check nor the
attribute check depends on the normalizer. -/
theorem c6_whitespace_normalization :
    normalize_whitespace ("  a \n b  ") = "a b"
  ∧ (∀ (cmp : Cmp) (a e : Element) (loc : Option Location),
      ElementComparator.compare_texts ⟨cmp, some normalize_whitespace⟩ a e loc
        = cmp (normalizedValue a.text) (normalizedValue e.text)
            (locMessage "Different text" loc))
  ∧ (∀ (cmp : Cmp) (a e : Element) (loc : Option Location),
      ElementComparator.compare_tails ⟨cmp, some normalize_whitespace⟩ a e loc
        = cmp (normalizedValue a.tail) (normalizedValue e.tail)
            (locMessage "Different tail text" loc))
  ∧ (∀ (cmp : Cmp) (n₁ n₂ : Option (String → String)) (a e : Element)
        (loc : Option Location),
      ElementComparator.compare_tags ⟨cmp, n₁⟩ a e loc
        = ElementComparator.compare_tags ⟨cmp, n₂⟩ a e loc)
  ∧ (∀ (cmp : Cmp) (n₁ n₂ : Option (String → String)) (a e : Element)
        (loc : Option Location),
      ElementComparator.compare_attributes ⟨cmp, n₁⟩ a e loc
        = ElementComparator.compare_attributes ⟨cmp, n₂⟩ a e loc) := by
  refine ⟨rfl, ?_, ?_, fun _ _ _ _ _ _ => rfl, ?_⟩
  · intro cmp a e loc
    have hx : ∀ t, ElementComparator.textOf ⟨cmp, some normalize_whitespace⟩ t
        = normalizedValue t := by
      intro t
      cases t with
      | none => rfl
      | some s => by_cases hs : s = "" <;> simp [ElementComparator.textOf, normalizedValue, hs]
    simp [ElementComparator.compare_texts, hx]
  · intro cmp a e loc
    have hx : ∀ t, ElementComparator.textOf ⟨cmp, some normalize_whitespace⟩ t
        = normalizedValue t := by
      intro t
      cases t with
      | none => rfl
      | some s => by_cases hs : s = "" <;> simp [ElementComparator.textOf, normalizedValue, hs]
    simp [ElementComparator.compare_tails, hx]
  · intro cmp n₁ n₂ a e loc
    simp only [ElementComparator.compare_attributes,
      compare_attr_values_normalizer_free cmp n₁ n₂ a e loc]

theorem sortedKeys_eq_imp_toFinset_eq {a1 a2 : List (String × String)}
    (h : sortedKeys a1 = sortedKeys a2) :
    (a1.map Prod.fst).toFinset = (a2.map Prod.fst).toFinset := by
  have p1 := List.mergeSort_perm (a1.map Prod.fst) (fun x y : String => x ≤ y)
  have p2 := List.mergeSort_perm (a2.map Prod.fst) (fun x y : String => x ≤ y)
  calc (a1.map Prod.fst).toFinset
      = (sortedKeys a1).toFinset := (List.toFinset_eq_of_perm _ _ p1).symm
    _ = (sortedKeys a2).toFinset := by rw [h]
    _ = (a2.map Prod.fst).toFinset := List.toFinset_eq_of_perm _ _ p2

/-- C7: when the attribute name sets differ the comparison fails with the
attribute-names message — whatever the attribute values and the injected
comparator are, so the name-set check precedes every value check — and that
message is distinct from every per-key value-mismatch message. -/
theorem c7_attribute_name_set (ec : ElementComparator) (a e : Element)
    (loc : Option Location)
    (h : (a.attrib.map Prod.fst).toFinset ≠ (e.attrib.map Prod.fst).toFinset) :
    ElementComparator.compare_attributes ec a e loc
      = Except.error (locMessage "Different attribute names" loc)
  ∧ (∀ k : String, locMessage "Different attribute names" loc
      ≠ locMessage ("Different value for attribute '" ++ k ++ "'") loc) := by
  constructor
  · have hs : sortedKeys a.attrib ≠ sortedKeys e.attrib :=
      fun hEq => h (sortedKeys_eq_imp_toFinset_eq hEq)
    simp [ElementComparator.compare_attributes, shouldBeEqual, hs, error_bind]
  · intro k hk
    have hl := congrArg String.length hk
    have e1 : ("Different attribute names").length = 25 := rfl
    have e2 : ("Different value for attribute '").length = 31 := rfl
    have e3 : ("'").length = 1 := rfl
    have e4 : (" at '").length = 5 := rfl
    cases loc with
    | none =>
        simp only [locMessage, String.length_append, e1, e2, e3] at hl
        omega
    | some l =>
        simp only [locMessage, String.length_append, e1, e2, e3, e4] at hl
        omega

/-- Witness for C7: an element with an `id` attribute against one with no
attributes fails with the attribute-names message even though every shared
key (there is none) agrees. -/
theorem c7_attribute_name_set_witness :
    ElementComparator.compare_attributes ⟨seCmp, none⟩
        (.mk "x" [("id", "1")] none [] none) (.mk "x" [] none [] none) none
      = Except.error (locMessage "Different attribute names" none) :=
  (c7_attribute_name_set ⟨seCmp, none⟩
      (.mk "x" [("id", "1")] none [] none) (.mk "x" [] none [] none) none
      (by simp [Element.attrib])).1

/-- C10: for an attribute name absent from the selected element,
`element_attribute_should_match` always raises the does-not-exist error —
before any pattern check, whatever the pattern and matcher — while
`element_attribute_should_be` performs no existence check: it hands the
default `None` to the equality assertion, which succeeds exactly when the
expected value is also `None`. -/
theorem c10_missing_attribute_asymmetry (env : Env) (matchCmp : Cmp)
    (source : Source) (name pattern : String) (expected : Option String)
    (message : Option String)
    (h : lookupAttr (get_parent env source).attrib name = none) :
    element_attribute_should_match env matchCmp source name pattern "." message
        = Except.error ("Attribute '" ++ name ++ "' does not exist.")
  ∧ element_attribute_should_be env source name expected "." message
        = shouldBeEqual (none : Option String) expected (message.getD "")
  ∧ element_attribute_should_be env source name none "." message
        = Except.ok () := by
  have hattr : get_element_attribute env source name "." none
      = Except.ok none := by
    simp [get_element_attribute, get_element, Except.map, h]
  refine ⟨?_, ?_, ?_⟩
  · simp [element_attribute_should_match, hattr, ok_bind]
  · simp [element_attribute_should_be, hattr, ok_bind]
  · simp [element_attribute_should_be, hattr, ok_bind, shouldBeEqual]

/-- Witness for C10 on an attribute-less element: the match assertion
raises the existence error, the equality assertion against `None` passes. -/
theorem c10_missing_attribute_asymmetry_witness :
    element_attribute_should_match ⟨fun _ => .mk "r" [] none [] none, fun _ _ => []⟩
        seCmp (.elem (.mk "r" [] none [] none)) "id" "*" "." none
      = Except.error ("Attribute '" ++ "id" ++ "' does not exist.")
  ∧ element_attribute_should_be ⟨fun _ => .mk "r" [] none [] none, fun _ _ => []⟩
        (.elem (.mk "r" [] none [] none)) "id" none "." none
      = Except.ok () :=
  ⟨(c10_missing_attribute_asymmetry ⟨fun _ => .mk "r" [] none [] none, fun _ _ => []⟩
      seCmp (.elem (.mk "r" [] none [] none)) "id" "*" none none rfl).1,
   (c10_missing_attribute_asymmetry ⟨fun _ => .mk "r" [] none [] none, fun _ _ => []⟩
      seCmp (.elem (.mk "r" [] none [] none)) "id" "*" none none rfl).2.2⟩

/-! ## Order of checks in ElementComparator.compare -/

/-- C1: per node the checks run in the fixed order tag, sorted attribute
name set, attribute values, own text, own tail, child count, recursion into
the child pairs in document order; the first failing check is the result of
the whole comparison and nothing after it (on this node or any later node)
runs. -/
theorem c1_compare_check_order (ec : ElementComparator) (a e : Element)
    (loc : Option Location) :
    (∀ m, ec.compare_tags a e loc = Except.error m
        → ec.compare a e loc = Except.error m)
  ∧ (∀ m, ec.compare_tags a e loc = Except.ok ()
        → ec.compare_attributes a e loc = Except.error m
        → ec.compare a e loc = Except.error m)
  ∧ (∀ m, shouldBeEqual (sortedKeys a.attrib) (sortedKeys e.attrib)
            (locMessage "Different attribute names" loc) = Except.error m
        → ec.compare_attributes a e loc = Except.error m)
  ∧ (∀ m, ec.compare_tags a e loc = Except.ok ()
        → ec.compare_attributes a e loc = Except.ok ()
        → ec.compare_texts a e loc = Except.error m
        → ec.compare a e loc = Except.error m)
  ∧ (∀ m, ec.compare_tags a e loc = Except.ok ()
        → ec.compare_attributes a e loc = Except.ok ()
        → ec.compare_texts a e loc = Except.ok ()
        → ec.compare_tails a e loc = Except.error m
        → ec.compare a e loc = Except.error m)
  ∧ (ec.compare_tags a e loc = Except.ok ()
        → ec.compare_attributes a e loc = Except.ok ()
        → ec.compare_texts a e loc = Except.ok ()
        → ec.compare_tails a e loc = Except.ok ()
        → ec.compare a e loc = ec.compare_children a e loc)
  ∧ (∀ m, shouldBeEqual a.children.length e.children.length
            (locMessage "Different number of child elements" loc) = Except.error m
        → ec.compare_children a e loc = Except.error m)
  ∧ (a.children.length = e.children.length
        → ec.compare_children a e loc
            = ec.compare_child_list a.children e.children
                (match loc with | none => ⟨a.tag, []⟩ | some l => l))
  ∧ (∀ (x y : Element) (xs ys : List Element) (l : Location) (m : String),
        ec.compare x y (some (l.child x.tag).1) = Except.error m
        → ec.compare_child_list (x :: xs) (y :: ys) l = Except.error m) := by
  obtain ⟨t, at_, tx, cs, tl⟩ := a
  have hunfold : ec.compare (.mk t at_ tx cs tl) e loc
      = (ec.compare_tags (.mk t at_ tx cs tl) e loc >>= fun _ =>
         ec.compare_attributes (.mk t at_ tx cs tl) e loc >>= fun _ =>
         ec.compare_texts (.mk t at_ tx cs tl) e loc >>= fun _ =>
         ec.compare_tails (.mk t at_ tx cs tl) e loc >>= fun _ =>
         shouldBeEqual cs.length e.children.length
             (locMessage "Different number of child elements" loc) >>= fun _ =>
         ec.compare_child_list cs e.children
           (match loc with | none => ⟨t, []⟩ | some l => l)) := rfl
  refine ⟨?_, ?_, ?_, ?_, ?_, ?_, ?_, ?_, ?_⟩
  · intro m h1; rw [hunfold, h1, error_bind]
  · intro m h1 h2; rw [hunfold, h1, ok_bind, h2, error_bind]
  · intro m h1
    simp only [ElementComparator.compare_attributes, h1, error_bind]
  · intro m h1 h2 h3; rw [hunfold, h1, ok_bind, h2, ok_bind, h3, error_bind]
  · intro m h1 h2 h3 h4
    rw [hunfold, h1, ok_bind, h2, ok_bind, h3, ok_bind, h4, error_bind]
  · intro h1 h2 h3 h4
    rw [hunfold, h1, ok_bind, h2, ok_bind, h3, ok_bind, h4, ok_bind]
    rfl
  · intro m h1
    simp only [ElementComparator.compare_children, h1, error_bind]
  · intro h1
    have hok : shouldBeEqual (Element.children (.mk t at_ tx cs tl)).length
        e.children.length (locMessage "Different number of child elements" loc)
        = Except.ok () := by
      simp [shouldBeEqual, h1]
    simp only [ElementComparator.compare_children, hok, ok_bind]
  · intro x y xs ys l m h1
    simp only [ElementComparator.compare_child_list, h1, error_bind]

/-- Witness for C1: a tag mismatch alone makes the whole comparison fail
with the tag message. -/
theorem c1_compare_check_order_witness :
    ElementComparator.compare ⟨seCmp, none⟩ (.mk "a" [] none [] none)
        (.mk "b" [] none [] none) none = Except.error "Different tag name" :=
  (c1_compare_check_order ⟨seCmp, none⟩ (.mk "a" [] none [] none)
      (.mk "b" [] none [] none) none).1 "Different tag name" rfl

/-! ## Reflexivity of the structural comparison -/

theorem lookupAttr_mem_keys (l : List (String × String)) (k : String)
    (h : k ∈ l.map Prod.fst) : ∃ v, lookupAttr l k = some v := by
  induction l with
  | nil => simp at h
  | cons p rest ih =>
      obtain ⟨k', v'⟩ := p
      by_cases hk : k' = k
      · exact ⟨v', by simp [lookupAttr, hk]⟩
      · have : k ∈ rest.map Prod.fst := by
          simp only [List.map_cons, List.mem_cons] at h
          exact h.resolve_left (fun hh => hk hh.symm)
        obtain ⟨v, hv⟩ := ih this
        exact ⟨v, by simp [lookupAttr, hk, hv]⟩

theorem compare_attr_values_self (norm : Option (String → String))
    (x : Element) (loc : Option Location) :
    ∀ ks, (∀ k ∈ ks, ∃ v, lookupAttr x.attrib k = some v)
      → ElementComparator.compare_attr_values ⟨seCmp, norm⟩ x x loc ks
          = Except.ok () := by
  intro ks
  induction ks with
  | nil => intro _; rfl
  | cons k rest ih =>
      intro h
      obtain ⟨v, hv⟩ := h k (List.mem_cons_self k rest)
      have hrest := ih (fun k' hk' => h k' (List.mem_cons_of_mem k hk'))
      simp [ElementComparator.compare_attr_values, hv, seCmp, shouldBeEqual, hrest,
        ok_bind]

theorem compare_attributes_self (norm : Option (String → String))
    (x : Element) (loc : Option Location) :
    ElementComparator.compare_attributes ⟨seCmp, norm⟩ x x loc = Except.ok () := by
  have hvals := compare_attr_values_self norm x loc (x.attrib.map Prod.fst)
    (fun k hk => lookupAttr_mem_keys x.attrib k hk)
  simp [ElementComparator.compare_attributes, shouldBeEqual, hvals, ok_bind]

theorem compare_child_list_self (norm : Option (String → String))
    (cs : List Element)
    (hmem : ∀ c ∈ cs, ∀ loc' : Option Location,
        ElementComparator.compare ⟨seCmp, norm⟩ c c loc' = Except.ok ()) :
    ∀ loc, ElementComparator.compare_child_list ⟨seCmp, norm⟩ cs cs loc
        = Except.ok () := by
  induction cs with
  | nil => intro _; rfl
  | cons c rest ih =>
      intro loc
      simp only [ElementComparator.compare_child_list]
      rw [hmem c (List.mem_cons_self c rest) _, ok_bind]
      exact ih (fun c' hc' => hmem c' (List.mem_cons_of_mem c hc')) _

theorem compare_self_aux (norm : Option (String → String)) :
    ∀ (n : Nat) (x : Element), sizeOf x ≤ n → ∀ loc : Option Location,
      ElementComparator.compare ⟨seCmp, norm⟩ x x loc = Except.ok () := by
  intro n
  induction n with
  | zero =>
      intro x hx
      obtain ⟨t, at_, tx, cs, tl⟩ := x
      simp at hx
  | succ n ih =>
      intro x hx loc
      obtain ⟨t, at_, tx, cs, tl⟩ := x
      have hcs : ∀ c ∈ cs, sizeOf c ≤ n := by
        intro c hc
        have h1 := List.sizeOf_lt_of_mem hc
        have h2 : sizeOf (Element.mk t at_ tx cs tl) = 1 + sizeOf t + sizeOf at_
            + sizeOf tx + sizeOf cs + sizeOf tl := by simp
        omega
      have hlist := compare_child_list_self norm cs
        (fun c hc loc' => ih c (hcs c hc) loc')
      have hunfold : ElementComparator.compare ⟨seCmp, norm⟩ (.mk t at_ tx cs tl)
          (.mk t at_ tx cs tl) loc
          = (ElementComparator.compare_tags ⟨seCmp, norm⟩ (.mk t at_ tx cs tl)
                (.mk t at_ tx cs tl) loc >>= fun _ =>
             ElementComparator.compare_attributes ⟨seCmp, norm⟩ (.mk t at_ tx cs tl)
                (.mk t at_ tx cs tl) loc >>= fun _ =>
             ElementComparator.compare_texts ⟨seCmp, norm⟩ (.mk t at_ tx cs tl)
                (.mk t at_ tx cs tl) loc >>= fun _ =>
             ElementComparator.compare_tails ⟨seCmp, norm⟩ (.mk t at_ tx cs tl)
                (.mk t at_ tx cs tl) loc >>= fun _ =>
             shouldBeEqual cs.length cs.length
                 (locMessage "Different number of child elements" loc) >>= fun _ =>
             ElementComparator.compare_child_list ⟨seCmp, norm⟩ cs cs
               (match loc with | none => ⟨t, []⟩ | some l => l)) := rfl
      rw [hunfold]
      rw [show ElementComparator.compare_tags ⟨seCmp, norm⟩ (.mk t at_ tx cs tl)
            (.mk t at_ tx cs tl) loc = Except.ok () by
          simp [ElementComparator.compare_tags, shouldBeEqual], ok_bind]
      rw [compare_attributes_self norm _ loc, ok_bind]
      rw [show ElementComparator.compare_texts ⟨seCmp, norm⟩ (.mk t at_ tx cs tl)
            (.mk t at_ tx cs tl) loc = Except.ok () by
          simp [ElementComparator.compare_texts, seCmp, shouldBeEqual], ok_bind]
      rw [show ElementComparator.compare_tails ⟨seCmp, norm⟩ (.mk t at_ tx cs tl)
            (.mk t at_ tx cs tl) loc = Except.ok () by
          simp [ElementComparator.compare_tails, seCmp, shouldBeEqual], ok_bind]
      rw [show shouldBeEqual cs.length cs.length
            (locMessage "Different number of child elements" loc) = Except.ok () by
          simp [shouldBeEqual], ok_bind]
      exact hlist _

theorem compare_self (norm : Option (String → String)) (x : Element)
    (loc : Option Location) :
    ElementComparator.compare ⟨seCmp, norm⟩ x x loc = Except.ok () :=
  compare_self_aux norm (sizeOf x) x le_rfl loc

/-- C8: structural equality is reflexive — comparing any parsed element
with itself through `elements_should_be_equal` succeeds, with or without
whitespace normalization. -/
theorem c8_elements_should_be_equal_refl (env : Env) (x : Element)
    (normalizeWs : Bool) :
    elements_should_be_equal env (.elem x) (.elem x) normalizeWs
      = Except.ok () := by
  have h := compare_self (if normalizeWs then some normalize_whitespace else none)
    x (none : Option Location)
  simp only [elements_should_be_equal, compare_elements, get_element, if_pos rfl,
    get_parent, ok_bind]
  exact h

/-! ## Text extraction -/

theorem joinStrings_append (l1 l2 : List String) :
    joinStrings (l1 ++ l2) = joinStrings l1 ++ joinStrings l2 := by
  induction l1 with
  | nil =>
      have : ("" : String) ++ joinStrings l2 = joinStrings l2 := by
        apply String.ext; simp [String.data_append]
      simp [joinStrings, this]
  | cons s rest ih =>
      have : s ++ joinStrings rest ++ joinStrings l2
          = s ++ (joinStrings rest ++ joinStrings l2) := by
        apply String.ext; simp [String.data_append]
      simp [joinStrings, ih, this]

theorem joinStrings_truthyText (t : Option String) :
    joinStrings (truthyText t) = t.getD "" := by
  cases t with
  | none => rfl
  | some s =>
      by_cases hs : s = ""
      · subst hs; rfl
      · have : s ++ ("" : String) = s := by
          apply String.ext; simp [String.data_append]
        simp [truthyText, joinStrings, hs, this]

theorem yield_texts_list_spec (cs : List Element)
    (hmem : ∀ c ∈ cs, joinStrings (yield_texts false c)
        = specExtractedText c ++ c.tail.getD "") :
    joinStrings (yield_texts_list cs) = specExtractedChildren cs := by
  induction cs with
  | nil => rfl
  | cons c rest ih =>
      have hr := ih (fun c' hc' => hmem c' (List.mem_cons_of_mem c hc'))
      simp only [yield_texts_list, specExtractedChildren, joinStrings_append,
        hmem c (List.mem_cons_self c rest), hr]

theorem yield_texts_spec_aux :
    ∀ (n : Nat) (x : Element), sizeOf x ≤ n →
      joinStrings (yield_texts true x) = specExtractedText x
      ∧ joinStrings (yield_texts false x)
          = specExtractedText x ++ x.tail.getD "" := by
  intro n
  induction n with
  | zero =>
      intro x hx
      obtain ⟨t, at_, tx, cs, tl⟩ := x
      simp at hx
  | succ n ih =>
      intro x hx
      obtain ⟨t, at_, tx, cs, tl⟩ := x
      have hcs : ∀ c ∈ cs, sizeOf c ≤ n := by
        intro c hc
        have h1 := List.sizeOf_lt_of_mem hc
        have h2 : sizeOf (Element.mk t at_ tx cs tl) = 1 + sizeOf t + sizeOf at_
            + sizeOf tx + sizeOf cs + sizeOf tl := by simp
        omega
      have hlist := yield_texts_list_spec cs (fun c hc => (ih c (hcs c hc)).2)
      constructor
      · show joinStrings (truthyText tx ++ yield_texts_list cs ++ [])
            = tx.getD "" ++ specExtractedChildren cs
        simp only [List.append_nil, joinStrings_append, joinStrings_truthyText, hlist]
      · show joinStrings (truthyText tx ++ yield_texts_list cs ++ truthyText tl)
            = tx.getD "" ++ specExtractedChildren cs
                ++ (Element.mk t at_ tx cs tl).tail.getD ""
        simp only [joinStrings_append, joinStrings_truthyText, hlist, Element.tail]

/-- C3: the raw text extracted by `get_element_text` is exactly the
spec-side recursive concatenation — the element's own leading text, then
each child's extracted text including that child's tail, with the top
element's own tail excluded and missing values read as empty — and on the
document `<a>X<b>Y</b>Z</a>` the result is `"XYZ"`. -/
theorem c3_text_extraction :
    (∀ e : Element, joinStrings (yield_texts true e) = specExtractedText e)
  ∧ (∀ (env : Env) (e : Element),
      get_element_text env (.elem e) "." false
        = Except.ok (joinStrings (yield_texts true e)))
  ∧ (∀ env : Env,
      get_element_text env
          (.elem (.mk "a" [] (some "X")
            [.mk "b" [] (some "Y") [] (some "Z")] none)) "." false
        = Except.ok "XYZ") :=
  ⟨fun e => (yield_texts_spec_aux (sizeOf e) e le_rfl).1,
   fun _ _ => rfl, fun _ => rfl⟩

/-! ## Serialization and declaration stripping -/

theorem splitFirstLine_append (decl rest : List Char) (h : '\n' ∉ decl) :
    splitFirstLine (decl ++ '\n' :: rest) = some (decl, rest) := by
  induction decl with
  | nil => simp [splitFirstLine]
  | cons c cs ih =>
      have hc : ¬ c = '\n' := fun hcn => h (hcn ▸ List.mem_cons_self c cs)
      have hcs : '\n' ∉ cs := fun hmem => h (List.mem_cons_of_mem c hmem)
      simp [splitFirstLine, hc, ih hcs]

theorem splitFirstLine_eq (cs : List Char) :
    ∀ l r, splitFirstLine cs = some (l, r) → cs = l ++ '\n' :: r := by
  induction cs with
  | nil => intro l r h; simp [splitFirstLine] at h
  | cons c rest ih =>
      intro l r h
      by_cases hc : c = '\n'
      · subst hc
        simp [splitFirstLine] at h
        obtain ⟨rfl, rfl⟩ := h
        simp
      · simp only [splitFirstLine, if_neg hc] at h
        rcases hsp : splitFirstLine rest with _ | ⟨l', r'⟩
        · rw [hsp] at h; simp at h
        · rw [hsp] at h
          simp at h
          obtain ⟨rfl, rfl⟩ := h
          simp [ih l' r' hsp]

theorem isPrefixOf_append (p : List Char) :
    ∀ l r : List Char, p.isPrefixOf l = true → p.isPrefixOf (l ++ r) = true := by
  induction p with
  | nil => intro l r _; simp [List.isPrefixOf]
  | cons a p' ih =>
      intro l r h
      cases l with
      | nil => simp [List.isPrefixOf] at h
      | cons b l' =>
          simp only [List.isPrefixOf, List.cons_append, Bool.and_eq_true] at h ⊢
          exact ⟨h.1, ih l' r h.2⟩

/-- C9: `element_to_string` returns the external UTF-8 serialization of the
selected element with a leading XML declaration line stripped: when the
serialization starts with a declaration line (`<?xml ...?>` then a
newline) the output is everything after that newline, and a serialization
not starting with `<?xml ` is returned unchanged. -/
theorem c9_element_to_string (tostring : Element → String) (env : Env)
    (source : Source) (decl rest : List Char)
    (h1 : ("<?xml ").data.isPrefixOf decl = true)
    (h2 : ("?>").data.isSuffixOf decl = true)
    (h3 : '\n' ∉ decl)
    (h4 : (tostring (get_parent env source)).data = decl ++ '\n' :: rest) :
    element_to_string tostring env source = Except.ok (String.mk rest)
  ∧ (∀ s : String, ("<?xml ").data.isPrefixOf s.data = false
      → xml_declaration_sub s = s)
  ∧ element_to_string tostring env source
      = Except.ok (xml_declaration_sub (tostring (get_parent env source))) := by
  refine ⟨?_, ?_, rfl⟩
  · have hsub : xml_declaration_sub (tostring (get_parent env source))
        = String.mk rest := by
      simp only [xml_declaration_sub, h4, splitFirstLine_append decl rest h3]
      simp [isXmlDeclLine, h1, h2]
    show Except.ok (xml_declaration_sub (tostring (get_parent env source)))
        = Except.ok (String.mk rest)
    rw [hsub]
  · intro s hp
    rcases hsp : splitFirstLine s.data with _ | ⟨l, r⟩
    · simp [xml_declaration_sub, hsp]
    · have hdata : s.data = l ++ '\n' :: r := splitFirstLine_eq s.data l r hsp
      have hlp : ("<?xml ").data.isPrefixOf l = false := by
        by_contra hcon
        have htrue : ("<?xml ").data.isPrefixOf l = true := by
          revert hcon; cases ("<?xml ").data.isPrefixOf l <;> simp
        have := isPrefixOf_append ("<?xml ").data l ('\n' :: r) htrue
        rw [← hdata] at this
        rw [this] at hp
        exact Bool.noConfusion hp
      simp [xml_declaration_sub, hsp, isXmlDeclLine, hlp]

/-- Witness for C9: a serialization carrying a declaration header line is
returned with that line stripped. -/
theorem c9_element_to_string_witness :
    element_to_string (fun _ => "<?xml version=\"1.0\"?>\nhello")
        ⟨fun _ => .mk "r" [] none [] none, fun _ _ => []⟩
        (.elem (.mk "r" [] none [] none))
      = Except.ok "hello" :=
  (c9_element_to_string (fun _ => "<?xml version=\"1.0\"?>\nhello")
      ⟨fun _ => .mk "r" [] none [] none, fun _ _ => []⟩
      (.elem (.mk "r" [] none [] none))
      ("<?xml version=\"1.0\"?>").data ("hello").data
      (by decide) (by decide) (by decide) rfl).1

end RobotXML
